import Mathlib

/-!
Verification of the ITSM-Agent event-rendering loop (src/app.py).

The repository is a Streamlit UI around an external agent framework. Its
only stateful logic is the run-button handler: it validates the submitted
email fields, then consumes a stream of RunResponse chunks, classifying
each chunk by its event tag into rendered "steps" while accumulating the
final report text. We embed that loop shallowly: Python values that can
be None / a string / some other object become an inductive type with
explicit truthiness, the per-chunk dispatch becomes a pure state
transition, and the whole stream becomes a fold.
-/

namespace ITSM

/-- A Python value as it appears in the `content` field of a chunk:
None, a string, or some other object carrying its truthiness and the
string produced by applying str() to it. -/
inductive PyVal where
  | vNone : PyVal
  | vStr : String → PyVal
  | vObj : Bool → String → PyVal
deriving DecidableEq

/-- Python truthiness of a content value: None is falsy, a string is
truthy iff non-empty, another object carries its own truthiness. -/
def is_truthy : PyVal → Bool
  | .vNone => false
  | .vStr s => s != ""
  | .vObj t _ => t

/-- Python str() applied to a content value. -/
def py_str : PyVal → String
  | .vNone => "None"
  | .vStr s => s
  | .vObj _ r => r

/-- One entry of the tools list of a chunk: the result of
tool_info.get applied to the function name key, None when absent. -/
structure ToolInfo where
  function_name : Option String
deriving DecidableEq

/-- The event tags of the external RunEvent enum that the loop
dispatches on; every unrecognized tag is collapsed into `other`. -/
inductive RunEventTag where
  | run_started
  | tool_call_started
  | tool_call_completed
  | run_response
  | run_completed
  | other
deriving DecidableEq

/-- A streamed RunResponse chunk: the fields of response_chunk that the
loop reads (event, content, tools, run_id). -/
structure RunResponseChunk where
  event : RunEventTag
  content : PyVal
  tools : List ToolInfo
  run_id : Option String
deriving DecidableEq

/-- A step record appended to execution_steps, with the dict keys used
in the source (icon, title, content, type). -/
structure Step where
  icon : String
  title : String
  content : String
  type : String
deriving DecidableEq

/-- The mutable locals of one execution of the run loop, plus the last
value written to the progress bar (as an exact rational). -/
structure RunState where
  execution_steps : List Step
  step_count : Nat
  current_agent : Option String
  full_content : String
  run_id : Option String
  progress : ℚ
deriving DecidableEq

/-- Python substring membership (the `in` operator) on character lists:
the pattern is a prefix of some suffix of the text. -/
def str_contains_aux (pat : List Char) : List Char → Bool
  | [] => pat.isEmpty
  | c :: rest => pat.isPrefixOf (c :: rest) || str_contains_aux pat rest

/-- Python `sub in s` for strings. -/
def str_contains (s sub : String) : Bool :=
  str_contains_aux sub.data s.data

/-- Python s.startswith(pre): pre is a prefix of the character sequence
of s. -/
def str_startswith (s pre : String) : Bool :=
  pre.data.isPrefixOf s.data

/-- get_agent_name_from_function from src/app.py: the static lookup
table from delegation function names to human labels, defaulting to the
generic Agent label. -/
def get_agent_name_from_function (function_name : String) : String :=
  if function_name = "transfer_task_to_task_analyzer" then "📊 Task Analyzer"
  else if function_name = "transfer_task_to_incident_analyzer" then "🔍 Incident Analyzer"
  else if function_name = "transfer_task_to_ticket_creation" then "🎫 Ticket Creation"
  else if function_name = "transfer_task_to_root_cause_analysis" then "🔬 Root Cause Analysis"
  else if function_name = "transfer_task_to_resolution_discovery" then "💡 Resolution Discovery"
  else "🤖 Agent"

/-- The keys of the lookup table in get_agent_name_from_function (the
five known delegation target function names). -/
def delegation_function_names : List String :=
  [ "transfer_task_to_task_analyzer"
  , "transfer_task_to_incident_analyzer"
  , "transfer_task_to_ticket_creation"
  , "transfer_task_to_root_cause_analysis"
  , "transfer_task_to_resolution_discovery" ]

/-- The keyword list scanned by the tool_call_completed branch of the
run loop in src/app.py. -/
def agent_keys : List String :=
  [ "task_analyzer"
  , "incident_analyzer"
  , "ticket_creation"
  , "root_cause_analysis"
  , "resolution_discovery" ]

/-- The agent re-detection scan of the tool_call_completed branch: only
when the content mentions the delegation marker, take the first of the
five keywords occurring in the content and map it through the lookup
table. -/
def detect_agent (content_str : String) : Option String :=
  if str_contains content_str "transfer_task_to_" then
    (agent_keys.find? (fun key => str_contains content_str key)).map
      (fun key => get_agent_name_from_function ("transfer_task_to_" ++ key))
  else none

/-- The body of the run loop of src/app.py for one RunResponse chunk:
record run_id, then dispatch on the event tag exactly as the
if/elif chain does, returning the updated state. -/
def process_chunk (s : RunState) (chunk : RunResponseChunk) : RunState :=
  let s := { s with run_id := chunk.run_id }
  match chunk.event with
  | .run_started =>
      { s with
        step_count := s.step_count + 1
        progress := 1/10
        execution_steps := s.execution_steps ++
          [⟨"🚀", "Orchestrator Started",
            "Analyzing incident and determining workflow", "info"⟩] }
  | .tool_call_started =>
      match chunk.tools.getLast? with
      | none => s
      | some tool_info =>
        match tool_info.function_name with
        | none => s
        | some fn =>
          if fn = "" then s
          else if ¬ str_startswith fn "transfer_task_to_" then s
          else
            let current_agent := get_agent_name_from_function fn
            let step_count := s.step_count + 1
            { s with
              current_agent := some current_agent
              step_count := step_count
              progress := min ((step_count : ℚ) / 10) (9/10)
              execution_steps := s.execution_steps ++
                [⟨"🔄", "Delegating to " ++ current_agent,
                  "Task transferred successfully", "delegation"⟩] }
  | .tool_call_completed =>
      if ¬ is_truthy chunk.content then s
      else
        let content_str := py_str chunk.content
        let detected_agent := detect_agent content_str
        let agent_name := ((detected_agent.orElse fun _ => s.current_agent).getD "🤖 Agent")
        let step_count := s.step_count + 1
        { s with
          step_count := step_count
          progress := min ((step_count : ℚ) / 10) (19/20)
          execution_steps := s.execution_steps ++
            [⟨"✅", agent_name ++ " - Completed", content_str, "success"⟩]
          current_agent := none }
  | .run_response =>
      match chunk.content with
      | .vStr str => { s with full_content := s.full_content ++ str }
      | _ => s
  | .run_completed =>
      { s with
        progress := 1
        execution_steps := s.execution_steps ++
          [⟨"✨", "Orchestration Completed",
            "All agents finished successfully", "success"⟩] }
  | .other => s

/-- The state of the loop locals just after their initialization and
the initial progress bar value of zero. -/
def init_run_state : RunState :=
  { execution_steps := []
  , step_count := 0
  , current_agent := none
  , full_content := ""
  , run_id := none
  , progress := 0 }

/-- Consuming a whole list of chunks from the initial state. -/
def process_events (events : List RunResponseChunk) : RunState :=
  events.foldl process_chunk init_run_state

/-- One item pulled from the response stream: either a RunResponse
chunk, or an exception carrying its message, raised at that point of
the iteration. -/
inductive StreamItem where
  | chunk : RunResponseChunk → StreamItem
  | raise : String → StreamItem
deriving DecidableEq

/-- Whether a stream item is an ordinary chunk. -/
def is_chunk : StreamItem → Bool
  | .chunk _ => true
  | .raise _ => false

/-- What the run handler leaves on screen: the rendered steps, the
final content, whether the status container was cleared, the error
banner if any, and whether a full exception trace was rendered. -/
structure HandlerResult where
  execution_steps : List Step
  full_content : String
  status_cleared : Bool
  error_shown : Option String
  trace_shown : Bool
deriving DecidableEq

/-- The for-loop over the stream inside the try block: process chunks
one by one; an exception stops iteration immediately, returning the
state reached so far together with the message. -/
def consume_stream : RunState → List StreamItem → RunState × Option String
  | s, [] => (s, none)
  | s, .chunk c :: rest => consume_stream (process_chunk s c) rest
  | s, .raise msg :: _ => (s, some msg)

/-- The try/except of the run-button handler: on an exception the
status container is emptied, an error banner with the message is shown
and the exception trace is rendered; on normal termination the status
container is also emptied and no error is shown. Either way the
handler returns once, with no retry. -/
def handle_run (items : List StreamItem) : HandlerResult :=
  match consume_stream init_run_state items with
  | (s, some msg) =>
      { execution_steps := s.execution_steps
      , full_content := s.full_content
      , status_cleared := true
      , error_shown := some ("❌ Error: " ++ msg)
      , trace_shown := true }
  | (s, none) =>
      { execution_steps := s.execution_steps
      , full_content := s.full_content
      , status_cleared := true
      , error_shown := none
      , trace_shown := false }

/-- The Python blank test applied by the submit guard: not s.strip()
holds exactly when every character of s is whitespace. -/
def stripped_blank (s : String) : Bool :=
  s.data.all Char.isWhitespace

/-- Outcome of pressing the run button: either the submission is
rejected with a warning and nothing runs, or the handler consumes the
stream. -/
inductive SubmitOutcome where
  | rejected : String → SubmitOutcome
  | run : HandlerResult → SubmitOutcome
deriving DecidableEq

/-- The guard at the top of the run-button handler of src/app.py:
when both subject and body strip to nothing, warn and stop; otherwise
run the agent and consume its stream. -/
def run_button_handler (email_subject email_body : String)
    (stream : List StreamItem) : SubmitOutcome :=
  if stripped_blank email_subject && stripped_blank email_body then
    .rejected "⚠️ Please enter incident details"
  else
    .run (handle_run stream)

/-- Written from the words of the spec, section 4.1, for comparison
with the loop: the filter deciding which events become visible steps
in a run that is still in progress (every run_started; every
tool_call_started whose non-empty tools list ends in a tool whose
function name starts with the delegation marker; every
tool_call_completed with non-empty content). -/
def spec_passes_filter (c : RunResponseChunk) : Bool :=
  match c.event with
  | .run_started => true
  | .tool_call_started =>
      match c.tools.getLast? with
      | some t =>
          match t.function_name with
          | some fn => str_startswith fn "transfer_task_to_"
          | none => false
      | none => false
  | .tool_call_completed => is_truthy c.content
  | _ => false

/-- Written from the words of the spec: the ordered list of string
deltas carried by run_response events. -/
def run_response_deltas (events : List RunResponseChunk) : List String :=
  events.filterMap fun c =>
    match c.event, c.content with
    | .run_response, .vStr str => some str
    | _, _ => none

/-- Written from the words of the spec: the ordered concatenation
d1 ++ d2 ++ ... ++ dN of a list of deltas. -/
def concat_strings : List String → String
  | [] => ""
  | d :: rest => d ++ concat_strings rest

/-! Equations for the individual branches of the loop body. -/

lemma process_chunk_run_started (s : RunState) (co : PyVal) (ts : List ToolInfo)
    (rid : Option String) :
    process_chunk s ⟨.run_started, co, ts, rid⟩ =
      { s with
        run_id := rid
        step_count := s.step_count + 1
        progress := 1/10
        execution_steps := s.execution_steps ++
          [⟨"🚀", "Orchestrator Started",
            "Analyzing incident and determining workflow", "info"⟩] } := rfl

lemma process_chunk_started_skip (s : RunState) (co : PyVal) (ts : List ToolInfo)
    (rid : Option String) (t : ToolInfo)
    (h : ∀ fn, t.function_name = some fn →
      str_startswith fn "transfer_task_to_" = false) :
    process_chunk s ⟨.tool_call_started, co, ts ++ [t], rid⟩ =
      { s with run_id := rid } := by
  obtain ⟨fnopt⟩ := t
  simp only [process_chunk, List.getLast?_concat]
  cases fnopt with
  | none => rfl
  | some fn =>
    have hfn := h fn rfl
    by_cases he : fn = ""
    · simp [he]
    · simp [he, hfn]

lemma process_chunk_started_empty (s : RunState) (co : PyVal)
    (rid : Option String) :
    process_chunk s ⟨.tool_call_started, co, [], rid⟩ =
      { s with run_id := rid } := rfl

lemma process_chunk_started_delegate (s : RunState) (co : PyVal)
    (ts : List ToolInfo) (rid : Option String) (fn : String)
    (h : str_startswith fn "transfer_task_to_" = true) :
    process_chunk s ⟨.tool_call_started, co, ts ++ [⟨some fn⟩], rid⟩ =
      { s with
        run_id := rid
        current_agent := some (get_agent_name_from_function fn)
        step_count := s.step_count + 1
        progress := min (((s.step_count + 1 : ℕ) : ℚ) / 10) (9/10)
        execution_steps := s.execution_steps ++
          [⟨"🔄", "Delegating to " ++ get_agent_name_from_function fn,
            "Task transferred successfully", "delegation"⟩] } := by
  have he : fn ≠ "" := by
    intro contra
    rw [contra] at h
    exact absurd h (by decide)
  simp only [process_chunk, List.getLast?_concat]
  simp [he, h]

lemma process_chunk_completed_skip (s : RunState) (co : PyVal)
    (ts : List ToolInfo) (rid : Option String)
    (h : is_truthy co = false) :
    process_chunk s ⟨.tool_call_completed, co, ts, rid⟩ =
      { s with run_id := rid } := by
  simp [process_chunk, h]

lemma process_chunk_completed_emit (s : RunState) (co : PyVal)
    (ts : List ToolInfo) (rid : Option String)
    (h : is_truthy co = true) :
    process_chunk s ⟨.tool_call_completed, co, ts, rid⟩ =
      { s with
        run_id := rid
        step_count := s.step_count + 1
        progress := min (((s.step_count + 1 : ℕ) : ℚ) / 10) (19/20)
        execution_steps := s.execution_steps ++
          [⟨"✅",
            (((detect_agent (py_str co)).orElse fun _ => s.current_agent).getD "🤖 Agent")
              ++ " - Completed",
            py_str co, "success"⟩]
        current_agent := none } := by
  simp [process_chunk, h]

lemma process_chunk_response_str (s : RunState) (str : String)
    (ts : List ToolInfo) (rid : Option String) :
    process_chunk s ⟨.run_response, .vStr str, ts, rid⟩ =
      { s with run_id := rid, full_content := s.full_content ++ str } := rfl

lemma process_chunk_response_none (s : RunState)
    (ts : List ToolInfo) (rid : Option String) :
    process_chunk s ⟨.run_response, .vNone, ts, rid⟩ =
      { s with run_id := rid } := rfl

lemma process_chunk_response_obj (s : RunState) (t : Bool) (r : String)
    (ts : List ToolInfo) (rid : Option String) :
    process_chunk s ⟨.run_response, .vObj t r, ts, rid⟩ =
      { s with run_id := rid } := rfl

lemma process_chunk_run_completed (s : RunState) (co : PyVal)
    (ts : List ToolInfo) (rid : Option String) :
    process_chunk s ⟨.run_completed, co, ts, rid⟩ =
      { s with
        run_id := rid
        progress := 1
        execution_steps := s.execution_steps ++
          [⟨"✨", "Orchestration Completed",
            "All agents finished successfully", "success"⟩] } := rfl

lemma process_chunk_other (s : RunState) (co : PyVal)
    (ts : List ToolInfo) (rid : Option String) :
    process_chunk s ⟨.other, co, ts, rid⟩ = { s with run_id := rid } := rfl

/-! Per-chunk bookkeeping: how one chunk changes the step list length,
the step counter, the content buffer and the progress value. -/

lemma chunk_steps_length (s : RunState) (c : RunResponseChunk) :
    (process_chunk s c).execution_steps.length =
      s.execution_steps.length +
        (if spec_passes_filter c then 1 else 0) +
        (if c.event = RunEventTag.run_completed then 1 else 0) := by
  obtain ⟨ev, co, ts, rid⟩ := c
  cases ev with
  | run_started => rw [process_chunk_run_started]; simp [spec_passes_filter]
  | tool_call_started =>
    rcases ts.eq_nil_or_concat' with rfl | ⟨ts0, t, rfl⟩
    · rw [process_chunk_started_empty]; simp [spec_passes_filter]
    · obtain ⟨_ | fn⟩ := t
      · rw [process_chunk_started_skip _ _ _ _ _ (fun f hf => by cases hf)]
        simp [spec_passes_filter, List.getLast?_concat]
      · cases hp : str_startswith fn "transfer_task_to_" with
        | true =>
          rw [process_chunk_started_delegate _ _ _ _ _ hp]
          simp [spec_passes_filter, List.getLast?_concat, hp]
        | false =>
          rw [process_chunk_started_skip _ _ _ _ _ (fun f hf => by cases hf; exact hp)]
          simp [spec_passes_filter, List.getLast?_concat, hp]
  | tool_call_completed =>
    cases ht : is_truthy co with
    | true =>
      rw [process_chunk_completed_emit _ _ _ _ ht]
      simp [spec_passes_filter, ht]
    | false =>
      rw [process_chunk_completed_skip _ _ _ _ ht]
      simp [spec_passes_filter, ht]
  | run_response =>
    rcases co with _ | str | ⟨t, r⟩
    · rw [process_chunk_response_none]; simp [spec_passes_filter]
    · rw [process_chunk_response_str]; simp [spec_passes_filter]
    · rw [process_chunk_response_obj]; simp [spec_passes_filter]
  | run_completed => rw [process_chunk_run_completed]; simp [spec_passes_filter]
  | other => rw [process_chunk_other]; simp [spec_passes_filter]

lemma chunk_step_count (s : RunState) (c : RunResponseChunk) :
    (process_chunk s c).step_count =
      s.step_count + (if spec_passes_filter c then 1 else 0) := by
  obtain ⟨ev, co, ts, rid⟩ := c
  cases ev with
  | run_started => rw [process_chunk_run_started]; simp [spec_passes_filter]
  | tool_call_started =>
    rcases ts.eq_nil_or_concat' with rfl | ⟨ts0, t, rfl⟩
    · rw [process_chunk_started_empty]; simp [spec_passes_filter]
    · obtain ⟨_ | fn⟩ := t
      · rw [process_chunk_started_skip _ _ _ _ _ (fun f hf => by cases hf)]
        simp [spec_passes_filter, List.getLast?_concat]
      · cases hp : str_startswith fn "transfer_task_to_" with
        | true =>
          rw [process_chunk_started_delegate _ _ _ _ _ hp]
          simp [spec_passes_filter, List.getLast?_concat, hp]
        | false =>
          rw [process_chunk_started_skip _ _ _ _ _ (fun f hf => by cases hf; exact hp)]
          simp [spec_passes_filter, List.getLast?_concat, hp]
  | tool_call_completed =>
    cases ht : is_truthy co with
    | true =>
      rw [process_chunk_completed_emit _ _ _ _ ht]
      simp [spec_passes_filter, ht]
    | false =>
      rw [process_chunk_completed_skip _ _ _ _ ht]
      simp [spec_passes_filter, ht]
  | run_response =>
    rcases co with _ | str | ⟨t, r⟩
    · rw [process_chunk_response_none]; simp [spec_passes_filter]
    · rw [process_chunk_response_str]; simp [spec_passes_filter]
    · rw [process_chunk_response_obj]; simp [spec_passes_filter]
  | run_completed => rw [process_chunk_run_completed]; simp [spec_passes_filter]
  | other => rw [process_chunk_other]; simp [spec_passes_filter]

lemma chunk_steps_isPrefix (s : RunState) (c : RunResponseChunk) :
    s.execution_steps <+: (process_chunk s c).execution_steps := by
  obtain ⟨ev, co, ts, rid⟩ := c
  cases ev with
  | run_started => rw [process_chunk_run_started]; exact List.prefix_append _ _
  | tool_call_started =>
    rcases ts.eq_nil_or_concat' with rfl | ⟨ts0, t, rfl⟩
    · rw [process_chunk_started_empty]
    · obtain ⟨_ | fn⟩ := t
      · rw [process_chunk_started_skip _ _ _ _ _ (fun f hf => by cases hf)]
      · cases hp : str_startswith fn "transfer_task_to_" with
        | true =>
          rw [process_chunk_started_delegate _ _ _ _ _ hp]
          exact List.prefix_append _ _
        | false =>
          rw [process_chunk_started_skip _ _ _ _ _ (fun f hf => by cases hf; exact hp)]
  | tool_call_completed =>
    cases ht : is_truthy co with
    | true =>
      rw [process_chunk_completed_emit _ _ _ _ ht]
      exact List.prefix_append _ _
    | false => rw [process_chunk_completed_skip _ _ _ _ ht]
  | run_response =>
    rcases co with _ | str | ⟨t, r⟩
    · rw [process_chunk_response_none]
    · rw [process_chunk_response_str]
    · rw [process_chunk_response_obj]
  | run_completed =>
    rw [process_chunk_run_completed]; exact List.prefix_append _ _
  | other => rw [process_chunk_other]

/-- The string a chunk contributes to the accumulated buffer: the delta
of a textual run_response, nothing otherwise. -/
def rr_delta (c : RunResponseChunk) : String :=
  match c.event, c.content with
  | .run_response, .vStr str => str
  | _, _ => ""

lemma chunk_full_content (s : RunState) (c : RunResponseChunk) :
    (process_chunk s c).full_content = s.full_content ++ rr_delta c := by
  obtain ⟨ev, co, ts, rid⟩ := c
  cases ev with
  | run_started => rw [process_chunk_run_started]; simp [rr_delta]
  | tool_call_started =>
    rcases ts.eq_nil_or_concat' with rfl | ⟨ts0, t, rfl⟩
    · rw [process_chunk_started_empty]; simp [rr_delta]
    · obtain ⟨_ | fn⟩ := t
      · rw [process_chunk_started_skip _ _ _ _ _ (fun f hf => by cases hf)]
        simp [rr_delta]
      · cases hp : str_startswith fn "transfer_task_to_" with
        | true =>
          rw [process_chunk_started_delegate _ _ _ _ _ hp]
          simp [rr_delta]
        | false =>
          rw [process_chunk_started_skip _ _ _ _ _ (fun f hf => by cases hf; exact hp)]
          simp [rr_delta]
  | tool_call_completed =>
    cases ht : is_truthy co with
    | true =>
      rw [process_chunk_completed_emit _ _ _ _ ht]
      simp [rr_delta]
    | false =>
      rw [process_chunk_completed_skip _ _ _ _ ht]
      simp [rr_delta]
  | run_response =>
    rcases co with _ | str | ⟨t, r⟩
    · rw [process_chunk_response_none]; simp [rr_delta]
    · rw [process_chunk_response_str]; simp [rr_delta]
    · rw [process_chunk_response_obj]; simp [rr_delta]
  | run_completed => rw [process_chunk_run_completed]; simp [rr_delta]
  | other => rw [process_chunk_other]; simp [rr_delta]

lemma chunk_progress_lt_one (s : RunState) (c : RunResponseChunk)
    (h : c.event ≠ RunEventTag.run_completed) (hp : s.progress < 1) :
    (process_chunk s c).progress < 1 := by
  have h910 : ∀ k : ℕ, min ((k : ℚ) / 10) (9/10) < 1 := fun k =>
    lt_of_le_of_lt (min_le_right _ _) (by norm_num)
  have h1920 : ∀ k : ℕ, min ((k : ℚ) / 10) (19/20) < 1 := fun k =>
    lt_of_le_of_lt (min_le_right _ _) (by norm_num)
  obtain ⟨ev, co, ts, rid⟩ := c
  cases ev with
  | run_started => rw [process_chunk_run_started]; norm_num
  | tool_call_started =>
    rcases ts.eq_nil_or_concat' with rfl | ⟨ts0, t, rfl⟩
    · rw [process_chunk_started_empty]; exact hp
    · obtain ⟨_ | fn⟩ := t
      · rw [process_chunk_started_skip _ _ _ _ _ (fun f hf => by cases hf)]
        exact hp
      · cases hpre : str_startswith fn "transfer_task_to_" with
        | true =>
          rw [process_chunk_started_delegate _ _ _ _ _ hpre]
          exact h910 _
        | false =>
          rw [process_chunk_started_skip _ _ _ _ _
            (fun f hf => by cases hf; exact hpre)]
          exact hp
  | tool_call_completed =>
    cases ht : is_truthy co with
    | true =>
      rw [process_chunk_completed_emit _ _ _ _ ht]
      exact h1920 _
    | false =>
      rw [process_chunk_completed_skip _ _ _ _ ht]
      exact hp
  | run_response =>
    rcases co with _ | str | ⟨t, r⟩
    · rw [process_chunk_response_none]; exact hp
    · rw [process_chunk_response_str]; exact hp
    · rw [process_chunk_response_obj]; exact hp
  | run_completed => exact absurd rfl h
  | other => rw [process_chunk_other]; exact hp
/-! Facts about folding the loop body over a whole list of chunks. -/

lemma foldl_steps_length (l : List RunResponseChunk) :
    ∀ s : RunState, (∀ c ∈ l, c.event ≠ RunEventTag.run_completed) →
      (l.foldl process_chunk s).execution_steps.length =
        s.execution_steps.length + (l.filter spec_passes_filter).length := by
  induction l with
  | nil => intro s _; simp
  | cons c l ih =>
    intro s h
    have hc : c.event ≠ RunEventTag.run_completed := h c (List.mem_cons_self _ _)
    have hl : ∀ d ∈ l, d.event ≠ RunEventTag.run_completed :=
      fun d hd => h d (List.mem_cons_of_mem _ hd)
    have hstep := chunk_steps_length s c
    rw [if_neg hc, Nat.add_zero] at hstep
    simp only [List.foldl_cons, ih (process_chunk s c) hl, hstep, List.filter_cons]
    by_cases hf : spec_passes_filter c = true
    · simp [hf]
      omega
    · simp only [Bool.not_eq_true] at hf
      simp [hf]

lemma foldl_progress_lt (l : List RunResponseChunk) :
    ∀ s : RunState, (∀ c ∈ l, c.event ≠ RunEventTag.run_completed) →
      s.progress < 1 → (l.foldl process_chunk s).progress < 1 := by
  induction l with
  | nil => intro s _ hp; exact hp
  | cons c l ih =>
    intro s h hp
    exact ih (process_chunk s c)
      (fun d hd => h d (List.mem_cons_of_mem _ hd))
      (chunk_progress_lt_one s c (h c (List.mem_cons_self _ _)) hp)

lemma foldl_full_content (l : List RunResponseChunk) :
    ∀ s : RunState,
      (l.foldl process_chunk s).full_content =
        s.full_content ++ concat_strings (run_response_deltas l) := by
  induction l with
  | nil =>
    intro s
    simp [run_response_deltas, concat_strings, String.append_empty]
  | cons c l ih =>
    intro s
    simp only [List.foldl_cons, ih (process_chunk s c), chunk_full_content,
      run_response_deltas, List.filterMap_cons]
    obtain ⟨ev, co, ts, rid⟩ := c
    cases ev with
    | run_response =>
      rcases co with _ | str | ⟨t, r⟩
      · simp [rr_delta, String.append_empty]
      · simp only [rr_delta, concat_strings]
        rw [String.append_assoc]
      · simp [rr_delta, String.append_empty]
    | run_started => simp [rr_delta, String.append_empty]
    | tool_call_started => simp [rr_delta, String.append_empty]
    | tool_call_completed => simp [rr_delta, String.append_empty]
    | run_completed => simp [rr_delta, String.append_empty]
    | other => simp [rr_delta, String.append_empty]

lemma foldl_state_mono (l : List RunResponseChunk) :
    ∀ s : RunState,
      s.execution_steps <+: (l.foldl process_chunk s).execution_steps ∧
      s.full_content.data <+: (l.foldl process_chunk s).full_content.data := by
  induction l with
  | nil => intro s; exact ⟨List.prefix_refl _, List.prefix_refl _⟩
  | cons c l ih =>
    intro s
    obtain ⟨ih1, ih2⟩ := ih (process_chunk s c)
    refine ⟨(chunk_steps_isPrefix s c).trans ih1, ?_⟩
    have hc : s.full_content.data <+: (process_chunk s c).full_content.data := by
      rw [chunk_full_content, String.data_append]
      exact List.prefix_append _ _
    exact hc.trans ih2

lemma foldl_steps_vs_count (l : List RunResponseChunk) :
    ∀ s : RunState,
      (l.foldl process_chunk s).execution_steps.length + s.step_count =
        s.execution_steps.length + (l.foldl process_chunk s).step_count +
          l.countP (fun c => c.event == RunEventTag.run_completed) := by
  induction l with
  | nil => intro s; simp [Nat.add_comm]
  | cons c l ih =>
    intro s
    have h1 := chunk_steps_length s c
    have h2 := chunk_step_count s c
    have h3 := ih (process_chunk s c)
    simp only [List.foldl_cons, List.countP_cons] at h3 ⊢
    by_cases hc : c.event = RunEventTag.run_completed
    · simp only [hc, if_pos rfl, beq_self_eq_true, if_true] at h1 ⊢
      omega
    · rw [if_neg hc] at h1
      have hb : (c.event == RunEventTag.run_completed) = false := by
        simpa using hc
      simp only [hb, if_false] at h3 ⊢
      simp only [Bool.false_eq_true, if_false]
      omega

/-! Claim theorems. -/

/-- A concrete stream without run_completed used to witness C2. -/
def sample_events : List RunResponseChunk :=
  [ ⟨RunEventTag.run_started, PyVal.vNone, [], some "r"⟩
  , ⟨RunEventTag.tool_call_started, PyVal.vNone,
      [⟨some "transfer_task_to_ticket_creation"⟩], some "r"⟩
  , ⟨RunEventTag.run_response, PyVal.vStr "part", [], some "r"⟩
  , ⟨RunEventTag.tool_call_completed, PyVal.vStr "done", [], some "r"⟩ ]

/-- Claim C2: for every sequence of well-formed events containing no
run_completed event, after the projector consumes the whole sequence
the step list length equals the number of events that pass the filters
of section 4.1, and the progress value never reaches 1.0 at any point
of the run. -/
theorem no_completion_filtered_step_count (events : List RunResponseChunk)
    (h : ∀ c ∈ events, c.event ≠ RunEventTag.run_completed) :
    (process_events events).execution_steps.length =
      (events.filter spec_passes_filter).length ∧
    ∀ pfx, pfx <+: events → (process_events pfx).progress < 1 := by
  constructor
  · have hx := foldl_steps_length events init_run_state h
    simpa [process_events, init_run_state] using hx
  · intro pfx hpfx
    obtain ⟨rest, rfl⟩ := hpfx
    apply foldl_progress_lt pfx init_run_state
    · exact fun c hc => h c (List.mem_append_left _ hc)
    · norm_num [init_run_state]

/-- Witness for C2: the sample stream yields as many steps as filtered
events and keeps progress below 1. -/
theorem no_completion_filtered_step_count_witness :
    (process_events sample_events).execution_steps.length =
      (sample_events.filter spec_passes_filter).length ∧
    (process_events sample_events).progress < 1 := by
  have h := no_completion_filtered_step_count sample_events (by decide)
  exact ⟨h.1, h.2 sample_events (List.prefix_refl _)⟩

/-- Claim C3: after processing any event list, the accumulated content
buffer equals the ordered concatenation of the string deltas of its
run_response events; no other event kind contributes to the buffer. -/
theorem accumulated_content_concat (events : List RunResponseChunk) :
    (process_events events).full_content =
      concat_strings (run_response_deltas events) := by
  have h := foldl_full_content events init_run_state
  simpa [process_events, init_run_state] using h

/-- Claim C8: along any run, an earlier state of the buffer is a
prefix of any later one, and the step list of an earlier state is a
prefix of any later one, so steps are only appended in arrival
order. -/
theorem buffer_monotone_steps_append_only (events pfx : List RunResponseChunk)
    (h : pfx <+: events) :
    (process_events pfx).full_content.data <+:
      (process_events events).full_content.data ∧
    (process_events pfx).execution_steps <+:
      (process_events events).execution_steps := by
  obtain ⟨rest, rfl⟩ := h
  unfold process_events
  rw [List.foldl_append]
  obtain ⟨h1, h2⟩ := foldl_state_mono rest (pfx.foldl process_chunk init_run_state)
  exact ⟨h2, h1⟩

/-- Witness for C8 at a concrete two-delta stream and its one-delta
prefix. -/
theorem buffer_monotone_steps_append_only_witness :
    (process_events
        [⟨RunEventTag.run_response, PyVal.vStr "ab", [], none⟩]).full_content.data <+:
      (process_events
        [ ⟨RunEventTag.run_response, PyVal.vStr "ab", [], none⟩
        , ⟨RunEventTag.run_response, PyVal.vStr "cd", [], none⟩ ]).full_content.data ∧
    (process_events
        [⟨RunEventTag.run_response, PyVal.vStr "ab", [], none⟩]).execution_steps <+:
      (process_events
        [ ⟨RunEventTag.run_response, PyVal.vStr "ab", [], none⟩
        , ⟨RunEventTag.run_response, PyVal.vStr "cd", [], none⟩ ]).execution_steps :=
  buffer_monotone_steps_append_only
    [ ⟨RunEventTag.run_response, PyVal.vStr "ab", [], none⟩
    , ⟨RunEventTag.run_response, PyVal.vStr "cd", [], none⟩ ]
    [⟨RunEventTag.run_response, PyVal.vStr "ab", [], none⟩]
    ⟨[⟨RunEventTag.run_response, PyVal.vStr "cd", [], none⟩], rfl⟩

/-- Claim C10: a run_completed event appends its success step without
touching the step counter, so over any whole stream the step list
length equals the counter plus the number of run_completed events; the
progress fraction computed from the counter never counts completion
steps. -/
theorem run_completed_step_not_counted (events : List RunResponseChunk) :
    (process_events events).execution_steps.length =
      (process_events events).step_count +
        events.countP (fun c => c.event == RunEventTag.run_completed) ∧
    ∀ (s : RunState) (co : PyVal) (ts : List ToolInfo) (rid : Option String),
      (process_chunk s ⟨RunEventTag.run_completed, co, ts, rid⟩).execution_steps =
        s.execution_steps ++
          [⟨"✨", "Orchestration Completed",
            "All agents finished successfully", "success"⟩] ∧
      (process_chunk s ⟨RunEventTag.run_completed, co, ts, rid⟩).step_count =
        s.step_count := by
  constructor
  · have h := foldl_steps_vs_count events init_run_state
    simp only [process_events, init_run_state] at h ⊢
    simp at h
    omega
  · intro s co ts rid
    rw [process_chunk_run_completed]
    exact ⟨rfl, rfl⟩

/-- Claim C4: for a tool_call_started event whose function name is
exactly one of the five known delegation targets, the emitted step
title is "Delegating to " followed by the label mapped from that
function name; the mapping is a pure function of the name, and unknown
names map to the generic Agent label. -/
theorem delegation_step_title (s : RunState) (co : PyVal) (ts : List ToolInfo)
    (rid : Option String) (fn : String)
    (h : fn ∈ delegation_function_names) :
    (process_chunk s
        ⟨RunEventTag.tool_call_started, co, ts ++ [⟨some fn⟩], rid⟩).execution_steps =
      s.execution_steps ++
        [⟨"🔄", "Delegating to " ++ get_agent_name_from_function fn,
          "Task transferred successfully", "delegation"⟩] ∧
    ∀ g, g ∉ delegation_function_names →
      get_agent_name_from_function g = "🤖 Agent" := by
  constructor
  · have hstart : str_startswith fn "transfer_task_to_" = true := by
      simp only [delegation_function_names, List.mem_cons, List.mem_singleton,
        List.not_mem_nil, or_false] at h
      rcases h with rfl | rfl | rfl | rfl | rfl <;> decide
    rw [process_chunk_started_delegate _ _ _ _ _ hstart]
  · intro g hg
    simp only [delegation_function_names, List.mem_cons, List.mem_singleton,
      List.not_mem_nil, or_false, not_or] at hg
    obtain ⟨h1, h2, h3, h4, h5⟩ := hg
    simp [get_agent_name_from_function, h1, h2, h3, h4, h5]

/-- Witness for C4: delegating to the incident analyzer emits the
expected title. -/
theorem delegation_step_title_witness :
    (process_chunk init_run_state
        ⟨RunEventTag.tool_call_started, PyVal.vNone,
          [⟨some "transfer_task_to_incident_analyzer"⟩], some "w"⟩).execution_steps =
      [⟨"🔄", "Delegating to 🔍 Incident Analyzer",
        "Task transferred successfully", "delegation"⟩] := by
  have h := (delegation_step_title init_run_state PyVal.vNone [] (some "w")
    "transfer_task_to_incident_analyzer" (by decide)).1
  simpa [init_run_state, get_agent_name_from_function] using h

/-- Claim C5: a tool_call_started event whose last function name does
not begin with the delegation marker emits no step and leaves the
current agent, the step list and the accumulated buffer unchanged. -/
theorem non_delegation_tool_ignored (s : RunState) (co : PyVal) (ts : List ToolInfo)
    (rid : Option String) (fn : String)
    (h : str_startswith fn "transfer_task_to_" = false) :
    (process_chunk s
        ⟨RunEventTag.tool_call_started, co, ts ++ [⟨some fn⟩], rid⟩).execution_steps =
      s.execution_steps ∧
    (process_chunk s
        ⟨RunEventTag.tool_call_started, co, ts ++ [⟨some fn⟩], rid⟩).current_agent =
      s.current_agent ∧
    (process_chunk s
        ⟨RunEventTag.tool_call_started, co, ts ++ [⟨some fn⟩], rid⟩).full_content =
      s.full_content := by
  rw [process_chunk_started_skip _ _ _ _ _ (fun f hf => by cases hf; exact h)]
  exact ⟨rfl, rfl, rfl⟩

/-- Witness for C5: a lookup_kb_article tool call produces zero steps
and changes neither the current agent nor the buffer. -/
theorem non_delegation_tool_ignored_witness :
    (process_chunk init_run_state
        ⟨RunEventTag.tool_call_started, PyVal.vNone,
          [⟨some "lookup_kb_article"⟩], some "w"⟩).execution_steps = [] ∧
    (process_chunk init_run_state
        ⟨RunEventTag.tool_call_started, PyVal.vNone,
          [⟨some "lookup_kb_article"⟩], some "w"⟩).current_agent = none ∧
    (process_chunk init_run_state
        ⟨RunEventTag.tool_call_started, PyVal.vNone,
          [⟨some "lookup_kb_article"⟩], some "w"⟩).full_content = "" := by
  have h := non_delegation_tool_ignored init_run_state PyVal.vNone [] (some "w")
    "lookup_kb_article" (by decide)
  simpa [init_run_state] using h

/-- Claim C9: only the last element of the tools list of a
tool_call_started event is inspected; when that element is not a
delegation call (its function name missing or without the delegation
marker), no step is emitted and the current agent is unchanged, even
when an earlier element of the list is a delegation call. -/
theorem only_last_tool_inspected (s : RunState) (co : PyVal) (rid : Option String)
    (ts : List ToolInfo) (t : ToolInfo)
    (h : ∀ fn, t.function_name = some fn →
      str_startswith fn "transfer_task_to_" = false) :
    (process_chunk s
        ⟨RunEventTag.tool_call_started, co, ts ++ [t], rid⟩).execution_steps =
      s.execution_steps ∧
    (process_chunk s
        ⟨RunEventTag.tool_call_started, co, ts ++ [t], rid⟩).current_agent =
      s.current_agent := by
  rw [process_chunk_started_skip _ _ _ _ _ h]
  exact ⟨rfl, rfl⟩

/-- Witness for C9: an earlier delegation entry is ignored when the
last tool entry has no function name. -/
theorem only_last_tool_inspected_witness :
    (process_chunk init_run_state
        ⟨RunEventTag.tool_call_started, PyVal.vNone,
          [⟨some "transfer_task_to_task_analyzer"⟩, ⟨none⟩], some "w"⟩).execution_steps =
      [] ∧
    (process_chunk init_run_state
        ⟨RunEventTag.tool_call_started, PyVal.vNone,
          [⟨some "transfer_task_to_task_analyzer"⟩, ⟨none⟩], some "w"⟩).current_agent =
      none := by
  have h := only_last_tool_inspected init_run_state PyVal.vNone (some "w")
    [⟨some "transfer_task_to_task_analyzer"⟩] ⟨none⟩ (fun fn hfn => by cases hfn)
  simpa [init_run_state] using h

/-- Claim C6: when both the submitted subject and body are blank the
submit action warns and starts no run; when at least one is non-blank
the run proceeds. -/
theorem blank_submit_rejected (subject body : String) (stream : List StreamItem) :
    (stripped_blank subject = true → stripped_blank body = true →
      run_button_handler subject body stream =
        SubmitOutcome.rejected "⚠️ Please enter incident details" ∧
      ∀ hr, run_button_handler subject body stream ≠ SubmitOutcome.run hr) ∧
    ((stripped_blank subject = false ∨ stripped_blank body = false) →
      run_button_handler subject body stream =
        SubmitOutcome.run (handle_run stream)) := by
  constructor
  · intro h1 h2
    have hrej : run_button_handler subject body stream =
        SubmitOutcome.rejected "⚠️ Please enter incident details" := by
      unfold run_button_handler
      rw [h1, h2]
      rfl
    refine ⟨hrej, fun hr hcontra => ?_⟩
    rw [hrej] at hcontra
    cases hcontra
  · intro h
    unfold run_button_handler
    rcases h with h | h <;> simp [h]

/-- Witness for C6: a whitespace-only subject with empty body is
rejected, while a real subject makes the run proceed. -/
theorem blank_submit_rejected_witness :
    run_button_handler " " "" [] =
      SubmitOutcome.rejected "⚠️ Please enter incident details" ∧
    run_button_handler "Server down" "" [] =
      SubmitOutcome.run (handle_run []) := by
  refine ⟨((blank_submit_rejected " " "" []).1 (by decide) (by decide)).1, ?_⟩
  exact (blank_submit_rejected "Server down" "" []).2 (Or.inl (by decide))

lemma consume_stream_raise (pre : List StreamItem) :
    ∀ (s : RunState) (msg : String) (rest : List StreamItem),
      (∀ i ∈ pre, is_chunk i = true) →
      consume_stream s (pre ++ StreamItem.raise msg :: rest) =
        consume_stream s (pre ++ [StreamItem.raise msg]) ∧
      (consume_stream s (pre ++ StreamItem.raise msg :: rest)).2 = some msg := by
  induction pre with
  | nil => intro s msg rest _; exact ⟨rfl, rfl⟩
  | cons i pre ih =>
    intro s msg rest h
    cases i with
    | chunk c =>
      simp only [List.cons_append, consume_stream]
      exact ih (process_chunk s c) msg rest
        (fun j hj => h j (List.mem_cons_of_mem _ hj))
    | raise m =>
      have hm := h (StreamItem.raise m) (List.mem_cons_self _ _)
      simp [is_chunk] at hm

/-- Claim C7: an exception raised while consuming the stream aborts the
loop (the items after it are never consumed), clears the progress
indicator, surfaces the exception message and its trace, and triggers
no retry of the remaining stream. -/
theorem exception_aborts_run (pre : List StreamItem) (msg : String)
    (post : List StreamItem)
    (h : ∀ i ∈ pre, is_chunk i = true) :
    handle_run (pre ++ StreamItem.raise msg :: post) =
      handle_run (pre ++ [StreamItem.raise msg]) ∧
    (handle_run (pre ++ StreamItem.raise msg :: post)).error_shown =
      some ("❌ Error: " ++ msg) ∧
    (handle_run (pre ++ StreamItem.raise msg :: post)).status_cleared = true ∧
    (handle_run (pre ++ StreamItem.raise msg :: post)).trace_shown = true := by
  obtain ⟨heq, hsnd⟩ := consume_stream_raise pre init_run_state msg post h
  constructor
  · unfold handle_run
    rw [heq]
  · rcases hc : consume_stream init_run_state (pre ++ StreamItem.raise msg :: post)
      with ⟨st, err⟩
    rw [hc] at hsnd
    have herr : err = some msg := hsnd
    subst herr
    unfold handle_run
    rw [hc]
    exact ⟨rfl, rfl, rfl⟩

/-- Witness for C7: a stream erroring after run_started ignores a
later run_completed chunk and surfaces the message. -/
theorem exception_aborts_run_witness :
    handle_run
        [ StreamItem.chunk ⟨RunEventTag.run_started, PyVal.vNone, [], some "r"⟩
        , StreamItem.raise "boom"
        , StreamItem.chunk ⟨RunEventTag.run_completed, PyVal.vNone, [], some "r"⟩ ] =
      handle_run
        [ StreamItem.chunk ⟨RunEventTag.run_started, PyVal.vNone, [], some "r"⟩
        , StreamItem.raise "boom" ] ∧
    (handle_run
        [ StreamItem.chunk ⟨RunEventTag.run_started, PyVal.vNone, [], some "r"⟩
        , StreamItem.raise "boom"
        , StreamItem.chunk ⟨RunEventTag.run_completed, PyVal.vNone, [], some "r"⟩
        ]).error_shown = some ("❌ Error: " ++ "boom") ∧
    (handle_run
        [ StreamItem.chunk ⟨RunEventTag.run_started, PyVal.vNone, [], some "r"⟩
        , StreamItem.raise "boom"
        , StreamItem.chunk ⟨RunEventTag.run_completed, PyVal.vNone, [], some "r"⟩
        ]).status_cleared = true ∧
    (handle_run
        [ StreamItem.chunk ⟨RunEventTag.run_started, PyVal.vNone, [], some "r"⟩
        , StreamItem.raise "boom"
        , StreamItem.chunk ⟨RunEventTag.run_completed, PyVal.vNone, [], some "r"⟩
        ]).trace_shown = true :=
  exception_aborts_run
    [StreamItem.chunk ⟨RunEventTag.run_started, PyVal.vNone, [], some "r"⟩]
    "boom"
    [StreamItem.chunk ⟨RunEventTag.run_completed, PyVal.vNone, [], some "r"⟩]
    (by decide)

lemma list_find?_eq_of_unique {α : Type} (p : α → Bool) :
    ∀ (l : List α) (k : α), k ∈ l → p k = true →
      (∀ x ∈ l, p x = true → x = k) → l.find? p = some k := by
  intro l
  induction l with
  | nil => intro k hk _ _; cases hk
  | cons a l ih =>
    intro k hk hpk huniq
    by_cases hpa : p a = true
    · have ha : a = k := huniq a (List.mem_cons_self _ _) hpa
      rw [List.find?_cons_of_pos _ hpa, ha]
    · rw [List.find?_cons_of_neg _ (by simpa using hpa)]
      have hkl : k ∈ l := by
        rcases List.mem_cons.mp hk with rfl | hmem
        · exact absurd hpk hpa
        · exact hmem
      exact ih k hkl hpk (fun x hx hpx => huniq x (List.mem_cons_of_mem _ hx) hpx)

lemma detect_agent_unique (cs k : String) (hk : k ∈ agent_keys)
    (hpre : str_contains cs "transfer_task_to_" = true)
    (hkey : str_contains cs k = true)
    (huniq : ∀ x ∈ agent_keys, str_contains cs x = true → x = k) :
    detect_agent cs =
      some (get_agent_name_from_function ("transfer_task_to_" ++ k)) := by
  unfold detect_agent
  rw [if_pos hpre, list_find?_eq_of_unique _ agent_keys k hk hkey huniq]
  rfl

/-- Claim C1, amended: for a tool_call_completed event whose non-empty
content contains the delegation marker "transfer_task_to_" and exactly
one of the five keywords, the emitted success step carries that
keyword's mapped label, regardless of any previously remembered
current agent. -/
theorem completed_step_keyword_label (s : RunState) (cs : String)
    (ts : List ToolInfo) (rid : Option String) (k : String)
    (hk : k ∈ agent_keys) (hne : cs ≠ "")
    (hpre : str_contains cs "transfer_task_to_" = true)
    (hkey : str_contains cs k = true)
    (huniq : ∀ x ∈ agent_keys, str_contains cs x = true → x = k) :
    (process_chunk s
        ⟨RunEventTag.tool_call_completed, PyVal.vStr cs, ts, rid⟩).execution_steps =
      s.execution_steps ++
        [⟨"✅",
          get_agent_name_from_function ("transfer_task_to_" ++ k) ++ " - Completed",
          cs, "success"⟩] := by
  have ht : is_truthy (PyVal.vStr cs) = true := by
    simp [is_truthy, hne]
  rw [process_chunk_completed_emit _ _ _ _ ht]
  have hd := detect_agent_unique cs k hk hpre hkey huniq
  simp [py_str, hd, Option.orElse]

/-- Witness for C1 (amended) at concrete completion content naming the
ticket-creation delegation. -/
theorem completed_step_keyword_label_witness :
    (process_chunk init_run_state
        ⟨RunEventTag.tool_call_completed,
          PyVal.vStr "ran transfer_task_to_ticket_creation", [], some "w"⟩).execution_steps =
      [⟨"✅", "🎫 Ticket Creation - Completed",
        "ran transfer_task_to_ticket_creation", "success"⟩] := by
  have h := completed_step_keyword_label init_run_state
    "ran transfer_task_to_ticket_creation" [] (some "w") "ticket_creation"
    (by decide) (by decide) (by decide) (by decide) (by decide)
  have e : get_agent_name_from_function ("transfer_task_to_" ++ "ticket_creation") =
      "🎫 Ticket Creation" := rfl
  rw [e] at h
  simpa [init_run_state] using h

/-- Counterexample to claim C1 as stated: the completion content
"incident_analyzer finished" contains exactly one of the five keywords
but not the marker "transfer_task_to_", and the emitted success step is
labelled with the previously remembered agent (Task Analyzer) rather
than the label mapped from the keyword (Incident Analyzer). -/
theorem keyword_only_content_uses_remembered_agent :
    str_contains "incident_analyzer finished" "incident_analyzer" = true ∧
    str_contains "incident_analyzer finished" "task_analyzer" = false ∧
    str_contains "incident_analyzer finished" "ticket_creation" = false ∧
    str_contains "incident_analyzer finished" "root_cause_analysis" = false ∧
    str_contains "incident_analyzer finished" "resolution_discovery" = false ∧
    get_agent_name_from_function "transfer_task_to_incident_analyzer" =
      "🔍 Incident Analyzer" ∧
    (process_chunk
        (process_chunk init_run_state
          ⟨RunEventTag.tool_call_started, PyVal.vNone,
            [⟨some "transfer_task_to_task_analyzer"⟩], some "r"⟩)
        ⟨RunEventTag.tool_call_completed,
          PyVal.vStr "incident_analyzer finished", [], some "r"⟩).execution_steps.getLast? =
      some ⟨"✅", "📊 Task Analyzer - Completed",
        "incident_analyzer finished", "success"⟩ ∧
    "📊 Task Analyzer - Completed" ≠ "🔍 Incident Analyzer - Completed" := by
  decide

end ITSM
